import Mathlib

/-
Verification development for the azul-client configuration store
(src/azul_client/config.py).

Modelling conventions, stated once:

* The ini file handled by `configparser` is modelled structurally: a file is a
  list of named sections, a section a list of key/value pairs.  `cfg.read`
  and `cfg.write` are therefore identities on that structure, and
  `cfg[config_section] = tmp` is `set_section` below (configparser clears the
  section in place when it exists, so its position is kept; a new section is
  appended).  Comments and byte-level layout of the text file are below this
  granularity.
* configparser stores every value as text (`read_dict` applies `str`), and
  pydantic re-parses that text according to the declared field type on load.
  Each of those `str`/parse pairs is an exact inverse pair on the values this
  program stores, so a stored value is modelled by its preimage, one
  constructor of `IniVal` per field type (`istr`, `iint`, `ibool`, `irat`,
  `itok`).  Python floats are modelled as rationals (`Rat`); `repr`/`float`
  round-trips exactly in Python.
* The auth token (`dict | None` in the source) is modelled as an optional
  association list of string keys to JSON-like values `Jv`.  `json.dumps` is
  injective on serialisable values and `json.loads` inverts it, so a token
  written by `Config.save` is stored as `IniVal.itok t` (the preimage of its
  JSON string).  Token text written into the file by an external editor is
  stored as `IniVal.istr s`; `json.loads` on such raw text is modelled by the
  executable parser `json_parse` below, which follows the JSON grammar
  accepted by the Python json module (objects, arrays, strings with escapes,
  number lexemes kept as text, true/false/null).  `Jv.jpyset` stands for a
  Python value that is not JSON serialisable (such as a set), which can sit
  in the in-memory dict but makes `json.dumps` raise.
* stderr diagnostics are modelled as the `Diag` inductive rather than as
  formatted strings.
* `configparser.ConfigParser()` uses `BasicInterpolation`.  Both of its
  effects are modelled: on write, `set` runs `before_set`, which rejects any
  value containing a percent sign that is neither doubled (`%%`) nor part of
  a `%(key)s` reference (`before_set_ok` below implements the exact
  replace-then-sub-then-check algorithm); on read, building the section dict
  applies `before_get` to every stored value, rewriting `%%` to `%`,
  substituting `%(key)s` from the raw section-plus-defaults map (depth
  bounded by 10), and raising on any other use of `%`
  (`interpolate_some` below).  The decimal text of ints, `True`/`False`, and
  the repr of floats contain no percent sign, so interpolation is the
  identity on them; likewise on the JSON text of a percent-free token.  Two
  marked model boundaries, neither of which any theorem below reaches: the
  substitution source text of a float or token value is not reconstructed
  (`IniVal.raw_text` is `none` there), and a stored token whose strings do
  contain percent signs is refused by `IniVal.interp` where the program
  would transform its JSON text.
* configparser's special `DEFAULT` section is modelled: selecting the active
  section never raises for the name `DEFAULT` (it yields the stored
  `[DEFAULT]` items, empty when absent), and an ordinary section is read
  together with the `DEFAULT` items it does not shadow (`effective_items`).
-/

namespace AzulClient

/-! Part: JSON-like values and the auth token -/

/-- JSON-like Python values that can appear inside the auth-token dict.
`jnum` keeps the numeric lexeme as text (no float arithmetic is performed on
it anywhere in the program).  `jpyset` models a Python value (such as a
`set`) that `json.dumps` cannot serialise. -/
inductive Jv where
  | jstr (s : String)
  | jnum (lexeme : String)
  | jbool (b : Bool)
  | jnull
  | jarr (elems : List Jv)
  | jobj (members : List (String × Jv))
  | jpyset (elems : List Jv)

/-- The auth token dict: string keys to JSON-like values. -/
abbrev TokenList := List (String × Jv)

mutual

/-- Whether `json.dumps` succeeds on this value. -/
def Jv.serializable : Jv → Bool
  | .jstr _ => true
  | .jnum _ => true
  | .jbool _ => true
  | .jnull => true
  | .jarr xs => serializable_list xs
  | .jobj kvs => serializable_members kvs
  | .jpyset _ => false

/-- Whether `json.dumps` succeeds on every element of a list. -/
def serializable_list : List Jv → Bool
  | [] => true
  | x :: xs => Jv.serializable x && serializable_list xs

/-- Whether `json.dumps` succeeds on every value of an association list. -/
def serializable_members : List (String × Jv) → Bool
  | [] => true
  | (_, v) :: kvs => Jv.serializable v && serializable_members kvs

end

/-- Whether `json.dumps` succeeds on the whole token (`None` dumps to
`"null"`). -/
def token_serializable : Option TokenList → Bool
  | none => true
  | some kvs => serializable_members kvs

/-! Part: the BasicInterpolation write-side check (`before_set`)

`RawConfigParser.set` runs `before_set` on every non-empty value: it removes
all `%%` pairs (left to right, non-overlapping, as `str.replace`), then
removes every `%(key)s` reference (the regex sub of `KEYCRE`, one or more
non-parenthesis characters between `%(` and `)s`), and raises `ValueError`
if a percent sign remains. -/

/-- Whether a character sequence is free of percent signs. -/
def no_pct (l : List Char) : Bool :=
  !(l.any (fun c => c == '%'))

/-- Model of `value.replace("%%", "")`: drop doubled percent signs, scanning
left to right without overlap. -/
def remove_pct_pairs : List Char → List Char
  | [] => []
  | [c] => [c]
  | c :: d :: rest =>
    if c == '%' && d == '%' then remove_pct_pairs rest
    else c :: remove_pct_pairs (d :: rest)

/-- Continue a `%(key)s` reference after its first key character: consume
the remaining non-parenthesis characters, then require the closing
parenthesis followed by `s`; returns the key characters and the
remainder. -/
def scan_key_rest : List Char → Option (List Char × List Char)
  | [] => none
  | ')' :: 's' :: r => some ([], r)
  | ')' :: _ => none
  | c :: rest =>
    match scan_key_rest rest with
    | some (ks, r) => some (c :: ks, r)
    | none => none

/-- Scan the tail of a `%(key)s` reference after `%(`: one or more
non-parenthesis characters, a closing parenthesis, and `s`; returns the key
characters and the remainder. -/
def scan_key_split : List Char → Option (List Char × List Char)
  | [] => none
  | ')' :: _ => none
  | c :: rest =>
    match scan_key_rest rest with
    | some (ks, r) => some (c :: ks, r)
    | none => none

/-- Model of the `KEYCRE` regex sub: delete every `%(key)s` reference,
scanning left to right (an unmatched position keeps its character).  The
fuel only bounds the recursion; each step consumes at least one character,
so `length + 1` fuel never runs out. -/
def ksub : Nat → List Char → List Char
  | 0, l => l
  | _ + 1, [] => []
  | fuel + 1, c :: rest =>
    if c == '%' then
      match rest with
      | '(' :: rest2 =>
        match scan_key_split rest2 with
        | some (_, r) => ksub fuel r
        | none => c :: ksub fuel rest
      | _ => c :: ksub fuel rest
    else c :: ksub fuel rest

/-- Whether `before_set` accepts this value text: no stray percent sign
after removing `%%` pairs and `%(key)s` references. -/
def before_set_ok (s : String) : Bool :=
  no_pct (ksub (s.length + 1) (remove_pct_pairs s.data))

/-! Part: percent-freeness of token values

The JSON text of a token is its keys and string scalars inside fixed
punctuation that contains no percent sign, so the text is percent-free
exactly when every key and string of the token is. -/

mutual

/-- Whether the JSON text of this value is free of percent signs. -/
def Jv.percent_free : Jv → Bool
  | .jstr s => no_pct s.data
  | .jnum lexeme => no_pct lexeme.data
  | .jbool _ => true
  | .jnull => true
  | .jarr xs => pct_free_list xs
  | .jobj kvs => pct_free_members kvs
  | .jpyset xs => pct_free_list xs

/-- Percent-freeness of every element of a list. -/
def pct_free_list : List Jv → Bool
  | [] => true
  | x :: xs => Jv.percent_free x && pct_free_list xs

/-- Percent-freeness of every key and value of an association list. -/
def pct_free_members : List (String × Jv) → Bool
  | [] => true
  | (k, v) :: kvs => no_pct k.data && Jv.percent_free v && pct_free_members kvs

end

/-- Percent-freeness of the whole token (the text `null` has none). -/
def token_percent_free : Option TokenList → Bool
  | none => true
  | some kvs => pct_free_members kvs

mutual

/-- Whether `before_set` accepts the JSON text contributed by this value:
each key and string scalar is checked with the value-level algorithm.  (A
reference or escape spanning two JSON string literals is not modelled; no
theorem below depends on that boundary.  `jpyset` never reaches
`before_set` because `json.dumps` raises first.) -/
def Jv.set_ok : Jv → Bool
  | .jstr s => before_set_ok s
  | .jnum lexeme => before_set_ok lexeme
  | .jbool _ => true
  | .jnull => true
  | .jarr xs => set_ok_list xs
  | .jobj kvs => set_ok_members kvs
  | .jpyset _ => true

/-- The `before_set` check over every element of a list. -/
def set_ok_list : List Jv → Bool
  | [] => true
  | x :: xs => Jv.set_ok x && set_ok_list xs

/-- The `before_set` check over every key and value of an association
list. -/
def set_ok_members : List (String × Jv) → Bool
  | [] => true
  | (k, v) :: kvs => before_set_ok k && Jv.set_ok v && set_ok_members kvs

end

/-- Whether `before_set` accepts the dumped token text. -/
def token_set_ok : Option TokenList → Bool
  | none => true
  | some kvs => set_ok_members kvs

/-! Part: A model of `json.loads` on raw file text

Used only for token text that was written into the ini file by something
other than `Config.save`.  The parser is fuelled; the initial fuel given by
`json_parse` always suffices for inputs whose nesting depth is bounded by
their length, which covers every real string. -/

/-- Whitespace as skipped by the JSON grammar. -/
def is_json_ws (c : Char) : Bool :=
  c == ' ' || c == '\t' || c == '\n' || c == '\r'

/-- Drop leading JSON whitespace. -/
def skip_ws : List Char → List Char
  | [] => []
  | c :: cs => if is_json_ws c then skip_ws cs else c :: cs

/-- Value of a hexadecimal digit. -/
def hex_val (c : Char) : Option Nat :=
  if '0' ≤ c ∧ c ≤ '9' then some (c.toNat - 48)
  else if 'a' ≤ c ∧ c ≤ 'f' then some (c.toNat - 87)
  else if 'A' ≤ c ∧ c ≤ 'F' then some (c.toNat - 55)
  else none

/-- Translation of a single-character JSON escape (backspace and form feed
written by code point). -/
def esc_char : Char → Option Char
  | '"' => some '"'
  | '\\' => some '\\'
  | '/' => some '/'
  | 'b' => some (Char.ofNat 8)
  | 'f' => some (Char.ofNat 12)
  | 'n' => some '\n'
  | 'r' => some '\r'
  | 't' => some '\t'
  | _ => none

/-- Parse the body of a JSON string (the opening quote already consumed),
returning the decoded characters and the rest of the input. -/
def parse_jstring : Nat → List Char → Option (List Char × List Char)
  | 0, _ => none
  | _ + 1, [] => none
  | fuel + 1, c :: cs =>
    if c == '"' then some ([], cs)
    else if c == '\\' then
      match cs with
      | [] => none
      | e :: cs2 =>
        if e == 'u' then
          match cs2 with
          | h1 :: h2 :: h3 :: h4 :: cs3 =>
            match hex_val h1, hex_val h2, hex_val h3, hex_val h4 with
            | some a, some b, some c3, some d =>
              match parse_jstring fuel cs3 with
              | some (s, r) =>
                some (Char.ofNat (((a * 16 + b) * 16 + c3) * 16 + d) :: s, r)
              | none => none
            | _, _, _, _ => none
          | _ => none
        else
          match esc_char e with
          | some ch =>
            match parse_jstring fuel cs2 with
            | some (s, r) => some (ch :: s, r)
            | none => none
          | none => none
    else if c.toNat < 32 then none
    else
      match parse_jstring fuel cs with
      | some (s, r) => some (c :: s, r)
      | none => none

/-- Take a maximal run of decimal digits. -/
def take_digits : List Char → List Char × List Char
  | [] => ([], [])
  | c :: cs =>
    if c.isDigit then
      let (a, b) := take_digits cs
      (c :: a, b)
    else ([], c :: cs)

/-- Parse the exponent digits of a number after the `e`/`E` marker `e`. -/
def parse_exp_digits (e : Char) (r : List Char) : Option (List Char × List Char) :=
  let (sgn, r1) :=
    match r with
    | '+' :: r2 => ([('+' : Char)], r2)
    | '-' :: r2 => ([('-' : Char)], r2)
    | _ => ([], r)
  match take_digits r1 with
  | ([], _) => none
  | (ds, r2) => some (e :: (sgn ++ ds), r2)

/-- Parse an optional exponent part, returning its lexeme characters. -/
def parse_exp_part : List Char → Option (List Char × List Char)
  | 'e' :: r => parse_exp_digits 'e' r
  | 'E' :: r => parse_exp_digits 'E' r
  | l => some ([], l)

/-- Parse a JSON number, keeping its lexeme as text. -/
def parse_number (l : List Char) : Option (Jv × List Char) :=
  let (sgn, l1) :=
    match l with
    | '-' :: r => ([('-' : Char)], r)
    | _ => ([], l)
  match take_digits l1 with
  | ([], _) => none
  | (d0 :: drest, l2) =>
    if d0 == '0' && !drest.isEmpty then none
    else
      let frac : Option (List Char × List Char) :=
        match l2 with
        | '.' :: r =>
          match take_digits r with
          | ([], _) => none
          | (ds, r2) => some ('.' :: ds, r2)
        | _ => some ([], l2)
      match frac with
      | none => none
      | some (fp, l3) =>
        match parse_exp_part l3 with
        | none => none
        | some (ep, l4) =>
          some (.jnum (String.mk (sgn ++ (d0 :: drest) ++ fp ++ ep)), l4)

mutual

/-- Parse one JSON value (leading whitespace allowed). -/
def parse_value : Nat → List Char → Option (Jv × List Char)
  | 0, _ => none
  | fuel + 1, l =>
    match skip_ws l with
    | [] => none
    | c :: cs =>
      if c == '{' then
        match parse_members fuel true cs with
        | some (kvs, r) => some (.jobj kvs, r)
        | none => none
      else if c == '[' then
        match parse_elems fuel true cs with
        | some (xs, r) => some (.jarr xs, r)
        | none => none
      else if c == '"' then
        match parse_jstring fuel cs with
        | some (s, r) => some (.jstr (String.mk s), r)
        | none => none
      else if c == 't' then
        match cs with
        | 'r' :: 'u' :: 'e' :: r => some (.jbool true, r)
        | _ => none
      else if c == 'f' then
        match cs with
        | 'a' :: 'l' :: 's' :: 'e' :: r => some (.jbool false, r)
        | _ => none
      else if c == 'n' then
        match cs with
        | 'u' :: 'l' :: 'l' :: r => some (.jnull, r)
        | _ => none
      else if c == '-' || c.isDigit then parse_number (c :: cs)
      else none

/-- Parse the members of a JSON object after the opening brace; `allowEnd`
permits an immediately closing brace (so a trailing comma is rejected, as in
Python). -/
def parse_members : Nat → Bool → List Char → Option (List (String × Jv) × List Char)
  | 0, _, _ => none
  | fuel + 1, allowEnd, l =>
    match skip_ws l with
    | '}' :: r => if allowEnd then some ([], r) else none
    | '"' :: r =>
      match parse_jstring fuel r with
      | some (k, r2) =>
        match skip_ws r2 with
        | ':' :: r3 =>
          match parse_value fuel r3 with
          | some (v, r4) =>
            match skip_ws r4 with
            | ',' :: r5 =>
              match parse_members fuel false r5 with
              | some (kvs, r6) => some ((String.mk k, v) :: kvs, r6)
              | none => none
            | '}' :: r5 => some ([(String.mk k, v)], r5)
            | _ => none
          | none => none
        | _ => none
      | none => none
    | _ => none

/-- Parse the elements of a JSON array after the opening bracket; `allowEnd`
permits an immediately closing bracket. -/
def parse_elems : Nat → Bool → List Char → Option (List Jv × List Char)
  | 0, _, _ => none
  | fuel + 1, allowEnd, l =>
    match skip_ws l with
    | ']' :: r => if allowEnd then some ([], r) else none
    | l1 =>
      match parse_value fuel l1 with
      | some (v, r) =>
        match skip_ws r with
        | ',' :: r2 =>
          match parse_elems fuel false r2 with
          | some (xs, r3) => some (v :: xs, r3)
          | none => none
        | ']' :: r2 => some ([v], r2)
        | _ => none
      | none => none

end

/-- Model of `json.loads` applied to raw file text: parse one value and
require only whitespace after it. -/
def json_parse (s : String) : Option Jv :=
  match parse_value (s.length + 2) s.data with
  | some (v, rest) => if (skip_ws rest).isEmpty then some v else none
  | none => none

/-! Part: The ini file structure -/

/-- One stored value of the flat key/value file, modelled by its preimage
under the `str`/parse inverse pair of its field type.  `itok t` is the JSON
string `json.dumps(t)` (never empty, always decodable back to `t`);
external raw token text is `istr`. -/
inductive IniVal where
  | istr (s : String)
  | iint (n : Int)
  | ibool (b : Bool)
  | irat (q : Rat)
  | itok (t : Option TokenList)

/-- One ini section: a flat association list, as configparser presents it. -/
abbrev IniSection := List (String × IniVal)

/-- An ini file: named sections in file order. -/
abbrev IniFile := List (String × IniSection)

/-- First-match association-list lookup (configparser sections and files have
unique keys). -/
def alist_get : List (String × α) → String → Option α
  | [], _ => none
  | p :: rest, k => if p.1 = k then some p.2 else alist_get rest k

/-- Whether the file has a section of this name. -/
def has_section : IniFile → String → Bool
  | [], _ => false
  | p :: rest, n => p.1 == n || has_section rest n

/-- Model of `cfg[config_section] = tmp` followed by `cfg.write`:
configparser clears an existing section in place (keeping its position) and
refills it, or appends a new section at the end. -/
def set_section (f : IniFile) (n : String) (sec : IniSection) : IniFile :=
  if has_section f n then f.map (fun p => if p.1 = n then (n, sec) else p)
  else f ++ [(n, sec)]

/-- The contents of the special `[DEFAULT]` section of a file (configparser
stores them as its defaults; empty when the file has none). -/
def file_defaults (f : IniFile) : IniSection :=
  (alist_get f "DEFAULT").getD []

/-- Whether a section stores this key. -/
def has_key (sec : IniSection) (k : String) : Bool :=
  (alist_get sec k).isSome

/-- The proxy view of an ordinary section: its own items followed by the
`DEFAULT` items it does not shadow (the chain map configparser reads
through). -/
def effective_items (defaults sec : IniSection) : IniSection :=
  sec ++ defaults.filter (fun p => !(has_key sec p.1))

/-! Part: the BasicInterpolation read-side rewrite (`before_get`)

Building the section dict calls `get` on every option, which runs
`_interpolate_some` on the stored text: `%%` becomes `%`, `%(key)s` is
replaced by the raw stored value of `key` (looked up case-insensitively in
the section-plus-defaults map, recursing when that value itself contains a
percent sign, ten levels at most), and any other use of `%` raises.  The
fuel only bounds the recursion; exhaustion yields a model error that no
theorem below reaches. -/

/-- The raw stored text of a value, as the interpolation substitution source
sees it.  The decimal text of an int and `True`/`False` are reconstructed;
the repr of a float and the JSON text of a token are not modelled as
substitution sources (`none`), a marked model boundary no theorem below
reaches. -/
def IniVal.raw_text : IniVal → Option String
  | .istr s => some s
  | .iint n => some (toString n)
  | .ibool b => some (if b then "True" else "False")
  | .irat _ => none
  | .itok _ => none

/-- Model of `_interpolate_some`: rewrite one stored text against the raw
map, with the recursion depth bounded by 10 as in configparser. -/
def interpolate_some (map : IniSection) :
    Nat → Nat → List Char → Except String (List Char)
  | 0, _, _ => .error "model: interpolation fuel exhausted"
  | fuel + 1, depth, rest =>
    if depth > 10 then .error "InterpolationDepthError"
    else
      match rest with
      | [] => .ok []
      | c :: r =>
        if c == '%' then
          match r with
          | '%' :: r2 =>
            match interpolate_some map fuel depth r2 with
            | .ok out => .ok ('%' :: out)
            | .error e => .error e
          | '(' :: r2 =>
            match scan_key_split r2 with
            | none => .error "InterpolationSyntaxError"
            | some (k, r3) =>
              match alist_get map (String.mk (k.map Char.toLower)) with
              | none => .error "InterpolationMissingOptionError"
              | some v =>
                match v.raw_text with
                | none => .error "model: interpolation source text not modelled"
                | some vt =>
                  if vt.data.any (fun ch => ch == '%') then
                    match interpolate_some map fuel (depth + 1) vt.data with
                    | .error e => .error e
                    | .ok sub =>
                      match interpolate_some map fuel depth r3 with
                      | .ok out => .ok (sub ++ out)
                      | .error e => .error e
                  else
                    match interpolate_some map fuel depth r3 with
                    | .ok out => .ok (vt.data ++ out)
                    | .error e => .error e
          | _ => .error "InterpolationSyntaxError"
        else
          match interpolate_some map fuel depth r with
          | .ok out => .ok (c :: out)
          | .error e => .error e

/-- Model of `before_get` on one stored text. -/
def before_get (map : IniSection) (s : String) : Except String String :=
  match interpolate_some map (11 * (s.length + 2)) 1 s.data with
  | .ok l => .ok (String.mk l)
  | .error e => .error e

/-- Whether the stored text of a value is free of percent signs, so that
`before_get` returns it unchanged. -/
def IniVal.percent_free : IniVal → Bool
  | .istr s => no_pct s.data
  | .iint _ => true
  | .ibool _ => true
  | .irat _ => true
  | .itok t => token_percent_free t

/-- What `before_get` does to one stored value.  Decimal, boolean and float
texts contain no percent sign, so they pass unchanged; raw text is rewritten
by `before_get`; the JSON text of a percent-free token likewise passes
unchanged, while a token whose strings contain percent signs is refused
here — a marked model boundary (the program would rewrite its JSON text)
that no theorem below reaches. -/
def IniVal.interp (map : IniSection) : IniVal → Except String IniVal
  | .istr s =>
    match before_get map s with
    | .ok s2 => .ok (.istr s2)
    | .error e => .error e
  | .iint n => .ok (.iint n)
  | .ibool b => .ok (.ibool b)
  | .irat q => .ok (.irat q)
  | .itok t =>
    if token_percent_free t then .ok (.itok t)
    else .error "model: interpolation of token text with percent signs not modelled"

/-- The per-option interpolation configparser performs while the section
dict is built (`{**proxy}`): every value rewritten against the raw map, the
first error propagating. -/
def interp_items (map : IniSection) : IniSection → Except String IniSection
  | [] => .ok []
  | (k, v) :: rest =>
    match v.interp map with
    | .error e => .error e
    | .ok v2 =>
      match interp_items map rest with
      | .error e => .error e
      | .ok rest2 => .ok ((k, v2) :: rest2)

/-! Part: The Settings record -/

/-- Model of the `azul_url` field validator `no_trailing_slash`
(`v.rstrip("/")`). -/
def rstrip_slash (s : String) : String :=
  String.mk (s.data.rdropWhile (fun c => c == '/'))

/-- The `Config` record of config.py with its declared defaults.  Floats are
modelled as rationals. -/
structure Config where
  azul_url : String := "http://localhost"
  oidc_url : String := "http://keycloak/.well-known/openid-configuration"
  auth_type : String := "callback"
  auth_scopes : String := ""
  auth_client_id : String := "azul-web"
  auth_client_secret : String := ""
  azul_verify_ssl : Bool := true
  auth_token : Option TokenList := some []
  auth_token_time : Int := 0
  max_timeout : Rat := 300
  oidc_timeout : Rat := 10

/-- The record `Config()` built from the compiled-in defaults. -/
def default_config : Config := {}

/-- The flat key/value image of a record under `model_dump` (with the token
replaced by its JSON string), in field order. -/
def Config.ini_section (c : Config) : IniSection :=
  [("azul_url", .istr c.azul_url),
   ("oidc_url", .istr c.oidc_url),
   ("auth_type", .istr c.auth_type),
   ("auth_scopes", .istr c.auth_scopes),
   ("auth_client_id", .istr c.auth_client_id),
   ("auth_client_secret", .istr c.auth_client_secret),
   ("azul_verify_ssl", .ibool c.azul_verify_ssl),
   ("auth_token", .itok c.auth_token),
   ("auth_token_time", .iint c.auth_token_time),
   ("max_timeout", .irat c.max_timeout),
   ("oidc_timeout", .irat c.oidc_timeout)]

/-- Whether `before_set` accepts every value `save` stores: the six string
fields and the dumped token text (decimal, boolean and float texts never
contain a percent sign). -/
def Config.set_ok (c : Config) : Bool :=
  before_set_ok c.azul_url && before_set_ok c.oidc_url &&
  before_set_ok c.auth_type && before_set_ok c.auth_scopes &&
  before_set_ok c.auth_client_id && before_set_ok c.auth_client_secret &&
  token_set_ok c.auth_token

/-- Whether every text `save` stores for this record is free of percent
signs, so that interpolation neither rejects it on write nor rewrites it on
read. -/
def Config.percent_free (c : Config) : Bool :=
  no_pct c.azul_url.data && no_pct c.oidc_url.data &&
  no_pct c.auth_type.data && no_pct c.auth_scopes.data &&
  no_pct c.auth_client_id.data && no_pct c.auth_client_secret.data &&
  token_percent_free c.auth_token

/-- Model of `Config.save` (config.py lines 63-75) against the file content
at the moment of the call.  `json.dumps` runs first (line 68); if it raises,
nothing has been read or opened yet.  Then the entire file is re-read fresh
and `cfg[config_section] = tmp` runs `before_set` on every stored value,
raising `ValueError` on a stray percent sign — still before the truncating
open of line 74, so the file is returned unchanged on either failure.
Otherwise the active section is replaced and the whole structure written
back.  The file argument is `none` when the file does not exist (`cfg.read`
of a missing file yields an empty parser). -/
def Config.save (c : Config) (sect : String) (file : Option IniFile) :
    Except String Unit × Option IniFile :=
  if token_serializable c.auth_token then
    if c.set_ok then
      (Except.ok (), some (set_section (file.getD []) sect c.ini_section))
    else
      (Except.error "ValueError: invalid interpolation syntax", file)
  else
    (Except.error "TypeError: Object is not JSON serializable", file)

/-! Part: Loading -/

/-- The stderr diagnostics of `get_config`, as an inductive rather than
formatted text. -/
inductive Diag where
  | generatingDefault
  | loadingSection (sect : String)
  | sectionInvalidDefaults (sect : String)
  | usingAzulAt (url : String)
deriving DecidableEq

/-- Result of a load: the returned record or the propagated error, the file
state after the call, and the diagnostics emitted. -/
structure LoadResult where
  result : Except String Config
  file : Option IniFile
  diags : List Diag

/-- Lines 101-109: select the active section.  The name `DEFAULT` is
configparser's default section and never raises `KeyError`: it yields the
stored `[DEFAULT]` items, empty when absent.  An ordinary present section is
read through the proxy, which also exposes the `DEFAULT` items it does not
shadow.  A missing ordinary section raises `KeyError`, caught only when the
active section is the system default name `default` (falling back to the
empty dict, with no `DEFAULT` inheritance since the dict build never ran),
and a fatal unknown-section error otherwise. -/
def read_section_step (sect : String) (f : IniFile) :
    Except String (IniSection × List Diag) :=
  if sect = "DEFAULT" then .ok (file_defaults f, [])
  else
    match alist_get f sect with
    | some sec => .ok (effective_items (file_defaults f) sec, [])
    | none =>
      if sect = "default" then .ok ([], [.sectionInvalidDefaults sect])
      else .error ("config section [" ++ sect ++ "] is invalid")

/-- What the token entry of the section dict looks like after the
`if conf.get("auth_token"): conf["auth_token"] = json.loads(...)` step. -/
inductive TokenParam where
  | absent
  | emptyStr
  | nonDict
  | value (t : Option TokenList)

/-- Lines 111-113: decode the token text only when it is present and
non-empty.  The input section is the already-interpolated dict, so the text
decoded here is the interpolation-transformed text, as in the program.
`itok t` is `json.dumps(t)` and decodes back to `t`; raw text is
run through `json_parse`, whose failure is the propagated JSONDecodeError.
Text decoding to a non-object, non-null value is left for pydantic to
reject (`nonDict`), as is a present-but-empty string (`emptyStr`).  An
`ibool` stored under the token key would read back as the text `True`/
`False`, which is not valid JSON; `iint`/`irat` text is valid JSON but not a
dict. -/
def decode_token (sec : IniSection) : Except String TokenParam :=
  match alist_get sec "auth_token" with
  | none => .ok .absent
  | some (.itok t) => .ok (.value t)
  | some (.istr s) =>
    if s = "" then .ok .emptyStr
    else
      match json_parse s with
      | none => .error "json.decoder.JSONDecodeError"
      | some (.jobj kvs) => .ok (.value (some kvs))
      | some .jnull => .ok (.value none)
      | some _ => .ok .nonDict
  | some (.ibool _) => .error "json.decoder.JSONDecodeError"
  | some (.iint _) => .ok .nonDict
  | some (.irat _) => .ok .nonDict

/-- A string field of `Config(**conf)`: absent keys take the field default,
text is taken as is, other stored types are not exercised by the program for
these keys and are modelled as validation failures. -/
def get_str_field (sec : IniSection) (key dflt : String) : Except String String :=
  match alist_get sec key with
  | none => .ok dflt
  | some (.istr s) => .ok s
  | some _ => .error ("validation error: " ++ key)

/-- A boolean field of `Config(**conf)`. -/
def get_bool_field (sec : IniSection) (key : String) (dflt : Bool) :
    Except String Bool :=
  match alist_get sec key with
  | none => .ok dflt
  | some (.ibool b) => .ok b
  | some _ => .error ("validation error: " ++ key)

/-- An integer field of `Config(**conf)`. -/
def get_int_field (sec : IniSection) (key : String) (dflt : Int) :
    Except String Int :=
  match alist_get sec key with
  | none => .ok dflt
  | some (.iint n) => .ok n
  | some _ => .error ("validation error: " ++ key)

/-- A float field of `Config(**conf)`. -/
def get_rat_field (sec : IniSection) (key : String) (dflt : Rat) :
    Except String Rat :=
  match alist_get sec key with
  | none => .ok dflt
  | some (.irat q) => .ok q
  | some _ => .error ("validation error: " ++ key)

/-- Line 114, `Config(**conf)`: build the record from the section dict, field
defaults filling absent keys, the `no_trailing_slash` validator applied to
`azul_url`, and the already-decoded token parameter in place of the raw
`auth_token` entry. -/
def build_config (sec : IniSection) (tok : TokenParam) : Except String Config := do
  let url ← get_str_field sec "azul_url" "http://localhost"
  let oidc ← get_str_field sec "oidc_url" "http://keycloak/.well-known/openid-configuration"
  let atype ← get_str_field sec "auth_type" "callback"
  let scopes ← get_str_field sec "auth_scopes" ""
  let cid ← get_str_field sec "auth_client_id" "azul-web"
  let csec ← get_str_field sec "auth_client_secret" ""
  let vssl ← get_bool_field sec "azul_verify_ssl" true
  let token ←
    (match tok with
     | .absent => Except.ok (some ([] : TokenList))
     | .value t => Except.ok t
     | .emptyStr => Except.error "validation error: auth_token is not a dict"
     | .nonDict => Except.error "validation error: auth_token is not a dict")
  let ttime ← get_int_field sec "auth_token_time" 0
  let mto ← get_rat_field sec "max_timeout" 300
  let oto ← get_rat_field sec "oidc_timeout" 10
  Except.ok
    { azul_url := rstrip_slash url, oidc_url := oidc, auth_type := atype,
      auth_scopes := scopes, auth_client_id := cid, auth_client_secret := csec,
      azul_verify_ssl := vssl, auth_token := token, auth_token_time := ttime,
      max_timeout := mto, oidc_timeout := oto }

/-- Lines 98-116 of `get_config`: parse the (now existing) file, select the
active section, interpolate every stored value while the section dict is
built, decode the token, build the record. -/
def load_from_file (sect : String) (file1 : Option IniFile) (ds0 : List Diag) :
    LoadResult :=
  let ds := ds0 ++ [Diag.loadingSection sect]
  match read_section_step sect (file1.getD []) with
  | .error e => ⟨.error e, file1, ds⟩
  | .ok (sec0, ds2) =>
    match interp_items sec0 sec0 with
    | .error e => ⟨.error e, file1, ds ++ ds2⟩
    | .ok sec =>
      match decode_token sec with
      | .error e => ⟨.error e, file1, ds ++ ds2⟩
      | .ok tp =>
        match build_config sec tp with
        | .error e => ⟨.error e, file1, ds ++ ds2⟩
        | .ok c => ⟨.ok c, file1, ds ++ ds2 ++ [Diag.usingAzulAt c.azul_url]⟩

/-- Model of `get_config` (lines 88-116) against the active section and the
current file content.  A missing file is bootstrapped by saving `Config()`
into the active section first (lines 92-96), with the generated-defaults
notice on stderr. -/
def get_config (sect : String) (file : Option IniFile) : LoadResult :=
  match file with
  | some f => load_from_file sect (some f) []
  | none =>
    match default_config.save sect none with
    | (.error e, f1) => ⟨.error e, f1, [Diag.generatingDefault]⟩
    | (.ok _, f1) => load_from_file sect f1 [Diag.generatingDefault]

/-- The environment variables `pydantic_settings` consults, `none` when
unset. -/
structure Env where
  azul_config_location : Option String := none
  token_refresh_path_lock : Option String := none
  token_lock_timeout : Option Rat := none

/-- The resolved `ConfigLocation` record. -/
structure ConfigLocation where
  azul_config_location : String
  token_refresh_path_lock : String
  token_lock_timeout : Rat

/-- Model of `ConfigLocation()`: each field from the environment when set,
else its default built from the home and temp directories. -/
def ConfigLocation.ofEnv (home tmpdir : String) (env : Env) : ConfigLocation :=
  { azul_config_location := env.azul_config_location.getD (home ++ "/.azul.ini")
    token_refresh_path_lock :=
      env.token_refresh_path_lock.getD (tmpdir ++ "/azul-token-refresh.lock")
    token_lock_timeout := env.token_lock_timeout.getD 30 }

/-- Line 37: the module-level `ConfigLocation()` evaluated once at process
startup, from the startup environment. -/
def startup_config_location (home tmpdir : String) (startup_env : Env) :
    ConfigLocation :=
  ConfigLocation.ofEnv home tmpdir startup_env

/-- Line 40: the lock-file path baked into `_lock_azul_config` at startup. -/
def startup_lock_path (home tmpdir : String) (startup_env : Env) : String :=
  (startup_config_location home tmpdir startup_env).token_refresh_path_lock

/-- Line 40: the lock timeout baked into `_lock_azul_config` at startup. -/
def startup_lock_timeout (home tmpdir : String) (startup_env : Env) : Rat :=
  (startup_config_location home tmpdir startup_env).token_lock_timeout

/-- Line 70: the config-file path `Config.save` resolves, from the
environment as it stands when save runs. -/
def save_resolved_location (home tmpdir : String) (env_at_call : Env) : String :=
  (ConfigLocation.ofEnv home tmpdir env_at_call).azul_config_location

/-- Line 91: the config-file path `get_config` resolves, from the
environment as it stands when load runs. -/
def get_config_resolved_location (home tmpdir : String) (env_at_call : Env) : String :=
  (ConfigLocation.ofEnv home tmpdir env_at_call).azul_config_location

/-! Part: The reentrant file lock

Modelled from the spec: the `filelock.FileLock` object (an external library,
documented in the NOTE of config.py as tracking the current process so that a
nested acquisition by the holder succeeds and does not double-acquire the
OS lock) is modelled as a holder plus an acquisition counter.  A conflicting
acquisition blocks and then fails after the configured timeout, which is
modelled as immediate failure since no concurrent release can occur within
one process. -/

/-- State of the process-shared lock: the holding process, if any, and how
many nested acquisitions it has made. -/
structure LockState where
  holder : Option Nat
  counter : Nat

/-- Acquire: immediate success when free or already held by this process
(reentrancy); otherwise a timeout failure after `timeout` seconds. -/
def lock_acquire (timeout : Rat) (pid : Nat) (st : LockState) :
    Option LockState :=
  match st.holder with
  | none => some ⟨some pid, 1⟩
  | some p =>
    if p = pid then some ⟨some p, st.counter + 1⟩
    else none

/-- Release: decrement the counter, freeing the OS lock only at zero. -/
def lock_release (st : LockState) : LockState :=
  if st.counter ≤ 1 then ⟨none, 0⟩ else ⟨st.holder, st.counter - 1⟩

/-- One lock event of a protected call. -/
inductive LockOp where
  | acq
  | rel

/-- Run a sequence of lock events for one process; `none` means some
acquisition timed out. -/
def run_lock_ops (timeout : Rat) (pid : Nat) :
    List LockOp → LockState → Option LockState
  | [], st => some st
  | .acq :: ops, st =>
    match lock_acquire timeout pid st with
    | some st2 => run_lock_ops timeout pid ops st2
    | none => none
  | .rel :: ops, st => run_lock_ops timeout pid ops (lock_release st)

/-- The lock events of one `clear_auth` call: the decorator on `clear_auth`
itself, then the nested decorated `get_config`, then the nested decorated
`save`. -/
def clear_auth_lock_ops : List LockOp :=
  [.acq, .acq, .rel, .acq, .rel, .rel]

/-! Part: Concrete records used by the witnesses -/

/-- A concrete valid record carrying a bearer token. -/
def witness_config : Config :=
  { azul_url := "http://example.com",
    auth_token := some [("access_token", Jv.jstr "abc")] }

/-- A concrete record whose token holds a Python set, which `json.dumps`
cannot serialise. -/
def witness_badtoken : Config :=
  { auth_token := some [("bad", Jv.jpyset [])] }

/-- A concrete record whose scopes field carries an escaped percent sign:
`before_set` accepts it, but `before_get` rewrites it on the way back. -/
def witness_pct_config : Config :=
  { auth_scopes := "100%%" }

/-- The scopes field a successful load returned, for stating value-level
counterexamples without an equality on whole records. -/
def loaded_auth_scopes (r : LoadResult) : Option String :=
  match r.result with
  | .ok c => some c.auth_scopes
  | .error _ => none

/-- A concrete store whose token text is not valid JSON as stored but
interpolates to valid JSON. -/
def witness_interp_store : IniFile :=
  [("default",
    [("auth_token", IniVal.istr "\x7b\"u\": %(auth_token_time)s\x7d"),
     ("auth_token_time", IniVal.iint 0)])]

/-- The record loading `witness_interp_store` returns: the reference in the
token text was replaced by the stored timestamp text before `json.loads`
ran. -/
def witness_interp_loaded : Config :=
  { auth_token := some [("u", Jv.jnum "0")] }

/-! Part: Helper lemmas -/

/-- Rewriting an existing section in place puts the new content under its
name. -/
theorem alist_get_map_self (f : IniFile) (n : String) (sec : IniSection)
    (h : has_section f n = true) :
    alist_get (f.map (fun p => if p.1 = n then (n, sec) else p)) n = some sec := by
  induction f with
  | nil => simp [has_section] at h
  | cons p rest ih =>
    by_cases hp : p.1 = n
    · simp [alist_get, hp]
    · have hr : has_section rest n = true := by
        simp only [has_section, Bool.or_eq_true, beq_iff_eq] at h
        exact h.resolve_left hp
      simp [alist_get, hp, ih hr]

/-- Appending a fresh section puts the new content under its name when the
name was absent. -/
theorem alist_get_append_self (f : IniFile) (n : String) (sec : IniSection)
    (h : has_section f n = false) :
    alist_get (f ++ [(n, sec)]) n = some sec := by
  induction f with
  | nil => simp [alist_get]
  | cons p rest ih =>
    simp only [has_section, Bool.or_eq_false_iff, beq_eq_false_iff_ne] at h
    simpa [alist_get, h.1] using ih h.2

/-- The replaced or appended section is found under its name. -/
theorem alist_get_set_section_self (f : IniFile) (n : String) (sec : IniSection) :
    alist_get (set_section f n sec) n = some sec := by
  unfold set_section
  split
  · exact alist_get_map_self f n sec (by assumption)
  · exact alist_get_append_self f n sec (by simpa using (by assumption : ¬ has_section f n = true))

/-- Rewriting section `n` in place leaves every other lookup unchanged. -/
theorem alist_get_map_other (f : IniFile) (n k : String) (sec : IniSection)
    (hk : k ≠ n) :
    alist_get (f.map (fun p => if p.1 = n then (n, sec) else p)) k
      = alist_get f k := by
  have hnk : ¬ n = k := fun hh => hk hh.symm
  have hkn : ¬ k = n := hk
  induction f with
  | nil => rfl
  | cons p rest ih =>
    by_cases hp : p.1 = n
    · have hpk : ¬ p.1 = k := by rw [hp]; exact hnk
      simp [alist_get, hp, hnk, hpk, ih]
    · by_cases hpk : p.1 = k
      · simp [alist_get, hp, hpk, hkn]
      · simp [alist_get, hp, hpk, ih]

/-- Appending a section named `n` leaves every other lookup unchanged. -/
theorem alist_get_append_other (f : IniFile) (n k : String) (sec : IniSection)
    (hk : k ≠ n) :
    alist_get (f ++ [(n, sec)]) k = alist_get f k := by
  have hnk : ¬ n = k := fun hh => hk hh.symm
  induction f with
  | nil => simp [alist_get, hnk]
  | cons p rest ih =>
    by_cases hpk : p.1 = k
    · simp [alist_get, hpk]
    · simp [alist_get, hpk, ih]

/-- Writing one section leaves the lookup of every other section unchanged. -/
theorem alist_get_set_section_other (f : IniFile) (n k : String)
    (sec : IniSection) (hk : k ≠ n) :
    alist_get (set_section f n sec) k = alist_get f k := by
  unfold set_section
  split
  · exact alist_get_map_other f n k sec hk
  · exact alist_get_append_other f n k sec hk

/-- A percent sign is absent from the head of a percent-free list. -/
theorem no_pct_cons_head {c : Char} {l : List Char}
    (h : no_pct (c :: l) = true) : (c == '%') = false := by
  simp only [no_pct, List.any_cons, Bool.not_eq_true', Bool.or_eq_false_iff] at h
  exact h.1

/-- The tail of a percent-free list is percent-free. -/
theorem no_pct_cons_tail {c : Char} {l : List Char}
    (h : no_pct (c :: l) = true) : no_pct l = true := by
  simp only [no_pct, List.any_cons, Bool.not_eq_true', Bool.or_eq_false_iff] at h
  simp [no_pct, h.2]

/-- The pair-removal pass leaves a percent-free text unchanged. -/
theorem remove_pct_pairs_of_no_pct :
    ∀ l : List Char, no_pct l = true → remove_pct_pairs l = l
  | [], _ => rfl
  | [c], _ => rfl
  | c :: d :: rest, h => by
    have hc := no_pct_cons_head h
    have ih := remove_pct_pairs_of_no_pct (d :: rest) (no_pct_cons_tail h)
    simp [remove_pct_pairs, hc, ih]

/-- The reference-removal pass leaves a percent-free text unchanged. -/
theorem ksub_of_no_pct :
    ∀ (fuel : Nat) (l : List Char), no_pct l = true → l.length < fuel →
      ksub fuel l = l
  | 0, l, _, hlen => absurd hlen (by omega)
  | _ + 1, [], _, _ => rfl
  | fuel + 1, c :: rest, h, hlen => by
    have hc := no_pct_cons_head h
    have ih := ksub_of_no_pct fuel rest (no_pct_cons_tail h)
      (by simp only [List.length_cons] at hlen; omega)
    simp [ksub, hc, ih]

/-- `before_set` accepts every percent-free value. -/
theorem before_set_ok_of_no_pct (s : String) (h : no_pct s.data = true) :
    before_set_ok s = true := by
  unfold before_set_ok
  rw [remove_pct_pairs_of_no_pct s.data h,
    ksub_of_no_pct (s.length + 1) s.data h (by
      show s.data.length < s.length + 1
      have hl : s.length = s.data.length := rfl
      omega)]
  exact h

mutual

/-- `before_set` accepts the text of a percent-free token value. -/
theorem Jv.set_ok_of_pf : ∀ v : Jv, v.percent_free = true → v.set_ok = true
  | .jstr s, h => by
    simp only [Jv.percent_free] at h
    simp only [Jv.set_ok]
    exact before_set_ok_of_no_pct s h
  | .jnum lx, h => by
    simp only [Jv.percent_free] at h
    simp only [Jv.set_ok]
    exact before_set_ok_of_no_pct lx h
  | .jbool _, _ => by simp [Jv.set_ok]
  | .jnull, _ => by simp [Jv.set_ok]
  | .jarr xs, h => by
    simp only [Jv.percent_free] at h
    simp only [Jv.set_ok]
    exact set_ok_list_of_pf xs h
  | .jobj kvs, h => by
    simp only [Jv.percent_free] at h
    simp only [Jv.set_ok]
    exact set_ok_members_of_pf kvs h
  | .jpyset _, _ => by simp [Jv.set_ok]

/-- `before_set` accepts every element of a percent-free list. -/
theorem set_ok_list_of_pf :
    ∀ xs : List Jv, pct_free_list xs = true → set_ok_list xs = true
  | [], _ => rfl
  | x :: xs, h => by
    simp only [pct_free_list, Bool.and_eq_true] at h
    simp only [set_ok_list, Bool.and_eq_true]
    exact ⟨Jv.set_ok_of_pf x h.1, set_ok_list_of_pf xs h.2⟩

/-- `before_set` accepts every key and value of a percent-free association
list. -/
theorem set_ok_members_of_pf :
    ∀ kvs : List (String × Jv), pct_free_members kvs = true →
      set_ok_members kvs = true
  | [], _ => rfl
  | (k, v) :: kvs, h => by
    simp only [pct_free_members, Bool.and_eq_true] at h
    simp only [set_ok_members, Bool.and_eq_true]
    exact ⟨⟨before_set_ok_of_no_pct k h.1.1, Jv.set_ok_of_pf v h.1.2⟩,
      set_ok_members_of_pf kvs h.2⟩

end

/-- `before_set` accepts the dumped text of a percent-free token. -/
theorem token_set_ok_of_pf :
    ∀ t : Option TokenList, token_percent_free t = true → token_set_ok t = true
  | none, _ => rfl
  | some kvs, h => by
    simp only [token_percent_free] at h
    simp only [token_set_ok]
    exact set_ok_members_of_pf kvs h

/-- `before_set` accepts every value a percent-free record stores. -/
theorem Config.set_ok_of_percent_free {c : Config} (h : c.percent_free = true) :
    c.set_ok = true := by
  simp only [Config.percent_free, Bool.and_eq_true] at h
  obtain ⟨⟨⟨⟨⟨⟨h1, h2⟩, h3⟩, h4⟩, h5⟩, h6⟩, h7⟩ := h
  simp only [Config.set_ok, Bool.and_eq_true]
  exact ⟨⟨⟨⟨⟨⟨before_set_ok_of_no_pct _ h1, before_set_ok_of_no_pct _ h2⟩,
    before_set_ok_of_no_pct _ h3⟩, before_set_ok_of_no_pct _ h4⟩,
    before_set_ok_of_no_pct _ h5⟩, before_set_ok_of_no_pct _ h6⟩,
    token_set_ok_of_pf _ h7⟩

/-- Interpolation rewrites nothing in a percent-free text. -/
theorem interpolate_some_of_no_pct (map : IniSection) :
    ∀ (fuel depth : Nat) (l : List Char), no_pct l = true →
      l.length < fuel → depth ≤ 10 →
      interpolate_some map fuel depth l = .ok l
  | 0, _, l, _, hlen, _ => absurd hlen (by omega)
  | _ + 1, depth, [], _, _, hd => by
    simp [interpolate_some, Nat.not_lt.mpr hd]
  | fuel + 1, depth, c :: rest, h, hlen, hd => by
    have hc := no_pct_cons_head h
    have ih := interpolate_some_of_no_pct map fuel depth rest (no_pct_cons_tail h)
      (by simp only [List.length_cons] at hlen; omega) hd
    simp [interpolate_some, Nat.not_lt.mpr hd, hc, ih]

/-- `before_get` returns a percent-free text unchanged. -/
theorem before_get_of_no_pct (map : IniSection) (s : String)
    (h : no_pct s.data = true) : before_get map s = .ok s := by
  have hlen : s.data.length < 11 * (s.length + 2) := by
    have hl : s.length = s.data.length := rfl
    omega
  unfold before_get
  rw [interpolate_some_of_no_pct map _ 1 s.data h hlen (by omega)]

/-- `before_get` leaves every percent-free stored value unchanged. -/
theorem IniVal.interp_of_pf (map : IniSection) :
    ∀ v : IniVal, v.percent_free = true → v.interp map = .ok v
  | .istr s, h => by
    simp only [IniVal.percent_free] at h
    simp [IniVal.interp, before_get_of_no_pct map s h]
  | .iint n, _ => by simp [IniVal.interp]
  | .ibool b, _ => by simp [IniVal.interp]
  | .irat q, _ => by simp [IniVal.interp]
  | .itok t, h => by
    simp only [IniVal.percent_free] at h
    simp [IniVal.interp, h]

/-- Building the section dict of a percent-free section interpolates nothing
away. -/
theorem interp_items_of_pf (map : IniSection) :
    ∀ sec : IniSection, sec.all (fun kv => kv.2.percent_free) = true →
      interp_items map sec = .ok sec
  | [], _ => rfl
  | (k, v) :: rest, h => by
    simp only [List.all_cons, Bool.and_eq_true] at h
    simp [interp_items, IniVal.interp_of_pf map v h.1,
      interp_items_of_pf map rest h.2]

/-- The flat image of a percent-free record stores only percent-free
values. -/
theorem ini_section_pf {c : Config} (h : c.percent_free = true) :
    (c.ini_section.all (fun kv => kv.2.percent_free)) = true := by
  simp only [Config.percent_free, Bool.and_eq_true] at h
  obtain ⟨⟨⟨⟨⟨⟨h1, h2⟩, h3⟩, h4⟩, h5⟩, h6⟩, h7⟩ := h
  simp [Config.ini_section, IniVal.percent_free, h1, h2, h3, h4, h5, h6, h7]

/-- Saving a record with a serialisable token, percent-free stored texts and
a normalised URL writes its flat image into the active section, and loading
that file (whose own `[DEFAULT]` section is empty or absent) returns the
record unchanged. -/
theorem save_load_aux (c : Config) (sect : String) (file : Option IniFile)
    (hser : token_serializable c.auth_token = true)
    (hpf : c.percent_free = true)
    (hnorm : rstrip_slash c.azul_url = c.azul_url)
    (hdef : file_defaults (file.getD []) = []) :
    c.save sect file =
      (.ok (), some (set_section (file.getD []) sect c.ini_section)) ∧
    (get_config sect (some (set_section (file.getD []) sect c.ini_section))).result
      = .ok c := by
  have hset := Config.set_ok_of_percent_free hpf
  have hsave : c.save sect file =
      (.ok (), some (set_section (file.getD []) sect c.ini_section)) := by
    simp [Config.save, hser, hset]
  refine ⟨hsave, ?_⟩
  have hint : interp_items c.ini_section c.ini_section = .ok c.ini_section :=
    interp_items_of_pf _ _ (ini_section_pf hpf)
  have hd : decode_token c.ini_section = .ok (.value c.auth_token) := rfl
  have hb : build_config c.ini_section (.value c.auth_token) =
      .ok { c with azul_url := rstrip_slash c.azul_url } := rfl
  rw [hnorm] at hb
  have hb2 : build_config c.ini_section (.value c.auth_token) = .ok c := hb
  by_cases hds : sect = "DEFAULT"
  · subst hds
    have hdf : file_defaults (set_section (file.getD []) "DEFAULT" c.ini_section)
        = c.ini_section := by
      unfold file_defaults
      rw [alist_get_set_section_self]
      rfl
    simp [get_config, load_from_file, read_section_step, hdf, hint, hd, hb2]
  · have hget : alist_get (set_section (file.getD []) sect c.ini_section) sect
        = some c.ini_section := alist_get_set_section_self ..
    have hdf : file_defaults (set_section (file.getD []) sect c.ini_section)
        = [] := by
      unfold file_defaults
      rw [alist_get_set_section_other _ _ _ _ (fun hh => hds hh.symm)]
      exact hdef
    have heff : effective_items
        (file_defaults (set_section (file.getD []) sect c.ini_section))
        c.ini_section = c.ini_section := by
      rw [hdf]
      simp [effective_items]
    simp [get_config, load_from_file, read_section_step, hds, hget, heff,
      hint, hd, hb2]

/-! Part: Claim theorems -/

/-- C1 counterexample: the round trip as stated fails inside its quantified
domain.  The record whose scopes field is `100%%` is valid (serialisable
token, normalised URL) and `before_set` accepts the escaped percent sign, so
`save` succeeds and stores the text verbatim; but `before_get` rewrites it
on load, so the loaded record differs from the saved one at that scalar
field. -/
theorem save_load_round_trip_counterexample :
    (witness_pct_config.save "default" none).1 = .ok () ∧
    loaded_auth_scopes
        (get_config "default" (witness_pct_config.save "default" none).2)
      ≠ some witness_pct_config.auth_scopes :=
  ⟨rfl, by decide⟩

/-- C1 amended: for every valid Settings record whose stored texts are free
of percent characters (JSON-serialisable token, base URL already normalised
— the state every constructed record with interpolation-free fields is in),
`save` followed by `load` of the same active section against a file with no
`[DEFAULT]` section returns an equal record: every scalar field round-trips
through the flat encoding, the token is reconstructed from its stored
JSON-string encoding, and the trailing-slash normalisation of the base URL
is preserved exactly.  A stray percent sign makes `save` raise instead, and
an escaped one is rewritten by interpolation on load. -/
theorem save_load_round_trip (c : Config) (sect : String) (file : Option IniFile)
    (hser : token_serializable c.auth_token = true)
    (hpf : c.percent_free = true)
    (hnorm : rstrip_slash c.azul_url = c.azul_url)
    (hdef : file_defaults (file.getD []) = []) :
    (c.save sect file).1 = .ok () ∧
    (get_config sect (c.save sect file).2).result = .ok c := by
  obtain ⟨h1, h2⟩ := save_load_aux c sect file hser hpf hnorm hdef
  rw [h1]
  exact ⟨rfl, h2⟩

/-- C1 witness: a concrete record carrying a bearer token round-trips through
a fresh file. -/
theorem save_load_round_trip_witness :
    (witness_config.save "default" none).1 = .ok () ∧
    (get_config "default" (witness_config.save "default" none).2).result
      = .ok witness_config :=
  save_load_round_trip witness_config "default" none rfl rfl rfl rfl

/-- C2 counterexample: the unknown-section error is not raised for every
non-`default` active section name.  The name `DEFAULT` — distinct from the
system default name `default` — is configparser's default section, which
never raises: loading it from a file that lacks it silently returns the
all-defaults record. -/
theorem missing_section_counterexample :
    (get_config "DEFAULT" (some [("other", [])])).result = .ok default_config ∧
    "DEFAULT" ≠ "default" :=
  ⟨rfl, by decide⟩

/-- C2 amended: loading from an existing file that lacks the active section
returns the all-defaults record without raising when the active section is
the system default name `default`; the configparser default-section name
`DEFAULT` likewise never raises and yields the all-defaults record when the
file has no `[DEFAULT]` items; for every other section name the load fails
with the unknown-section error.  In all cases the file is not modified. -/
theorem missing_section_behavior (sect : String) (f : IniFile)
    (h : alist_get f sect = none) :
    (sect = "default" →
      (get_config sect (some f)).result = .ok default_config ∧
      (get_config sect (some f)).file = some f) ∧
    (sect = "DEFAULT" →
      (get_config sect (some f)).result = .ok default_config ∧
      (get_config sect (some f)).file = some f) ∧
    (sect ≠ "default" → sect ≠ "DEFAULT" →
      (get_config sect (some f)).result =
        .error ("config section [" ++ sect ++ "] is invalid") ∧
      (get_config sect (some f)).file = some f) := by
  have hb : build_config [] .absent = .ok default_config := rfl
  have hdt : decode_token [] = .ok .absent := rfl
  have hit : interp_items [] [] = .ok [] := rfl
  refine ⟨?_, ?_, ?_⟩
  · intro hd
    subst hd
    constructor <;>
      simp [get_config, load_from_file, read_section_step, h, hit, hdt, hb]
  · intro hd
    subst hd
    have hdf : file_defaults f = [] := by
      unfold file_defaults
      rw [h]
      rfl
    constructor <;>
      simp [get_config, load_from_file, read_section_step, hdf, hit, hdt, hb]
  · intro hd1 hd2
    constructor <;>
      simp [get_config, load_from_file, read_section_step, h, hd1, hd2]

/-- C2 witness: requesting the explicitly switched-to section `staging` from
a file that only has other sections fails with the unknown-section error and
leaves the file as it was. -/
theorem missing_section_behavior_witness :
    (get_config "staging" (some [("default", [])])).result =
      .error ("config section [" ++ "staging" ++ "] is invalid") ∧
    (get_config "staging" (some [("default", [])])).file =
      some [("default", [])] :=
  (missing_section_behavior "staging" [("default", [])] rfl).2.2
    (by decide) (by decide)

/-- C3: loading with the default section active while no config file exists
synthesises the compiled-in defaults, persists them immediately under the
default section, emits the generated-defaults notice, and returns a record
equal to the defaults. -/
theorem default_bootstrap :
    (get_config "default" none).result = .ok default_config ∧
    (get_config "default" none).file =
      some [("default", default_config.ini_section)] ∧
    Diag.generatingDefault ∈ (get_config "default" none).diags :=
  ⟨rfl, rfl, by decide⟩

/-- C4: every save preserves every other section exactly as it stood in the
file at the moment of the save (the file is re-read fresh, so edits made by
other processes between this process loading and saving are included): when
the save succeeds only the active section is replaced with the new content,
and when serialisation or the interpolation check rejects the record the
file is not written at all. -/
theorem save_preserves_other_sections (c : Config) (sect other : String)
    (file : Option IniFile) (hne : other ≠ sect) :
    alist_get (((c.save sect file).2).getD []) other =
      alist_get (file.getD []) other ∧
    ((c.save sect file).1 = .ok () →
      ∃ f2, (c.save sect file).2 = some f2 ∧
        alist_get f2 sect = some c.ini_section) := by
  cases hser : token_serializable c.auth_token with
  | false => simp [Config.save, hser]
  | true =>
    cases hset : c.set_ok with
    | false => simp [Config.save, hset, hser]
    | true =>
      refine ⟨?_, fun _ =>
        ⟨set_section (file.getD []) sect c.ini_section, ?_,
          alist_get_set_section_self ..⟩⟩
      · simp [Config.save, hser, hset,
          alist_get_set_section_other _ _ _ _ hne]
      · simp [Config.save, hser, hset]

/-- C4 witness: saving the defaults into `default` keeps a pre-existing
`staging` section written by another process untouched, and the written
`default` section holds the new content. -/
theorem save_preserves_other_sections_witness :
    alist_get (((Config.save default_config "default"
        (some [("staging", [("azul_url", IniVal.istr "http://s")])])).2).getD [])
        "staging" =
      alist_get [("staging", [("azul_url", IniVal.istr "http://s")])] "staging" ∧
    ∃ f2, (Config.save default_config "default"
        (some [("staging", [("azul_url", IniVal.istr "http://s")])])).2 = some f2 ∧
      alist_get f2 "default" = some default_config.ini_section :=
  ⟨(save_preserves_other_sections default_config "default" "staging"
      (some [("staging", [("azul_url", IniVal.istr "http://s")])]) (by decide)).1,
   (save_preserves_other_sections default_config "default" "staging"
      (some [("staging", [("azul_url", IniVal.istr "http://s")])]) (by decide)).2 rfl⟩

/-- C6 counterexample: a stored token text that is not valid JSON does not
always fail the load, because configparser interpolation transforms the text
before `json.loads` sees it.  The stored text `{"u": %(auth_token_time)s}`
is not valid JSON, yet the `%(auth_token_time)s` reference is replaced by
the stored timestamp text `0` while the section dict is built, and the load
succeeds with the token `{"u": 0}`. -/
theorem malformed_token_counterexample :
    json_parse "\x7b\"u\": %(auth_token_time)s\x7d" = none ∧
    (get_config "default" (some witness_interp_store)).result =
      .ok witness_interp_loaded :=
  ⟨rfl, rfl⟩

/-- C6 amended: loading from an existing file whose active section carries a
token value that — after the interpolation rewrite configparser applies
while the section dict is built — is non-empty text that is not valid JSON,
fails with the propagated decode error; the malformed token is never
silently discarded or replaced by a default, and the file is not modified.
The decode is attempted exactly because the interpolated value is present
and non-empty; raw text that interpolates to valid JSON loads instead. -/
theorem malformed_token_fails_load (sect : String) (f : IniFile)
    (sec0 sec : IniSection) (s : String) (ds : List Diag)
    (hsec : read_section_step sect f = .ok (sec0, ds))
    (hint : interp_items sec0 sec0 = .ok sec)
    (htok : alist_get sec "auth_token" = some (.istr s))
    (hne : s ≠ "")
    (hbad : json_parse s = none) :
    (get_config sect (some f)).result = .error "json.decoder.JSONDecodeError" ∧
    (get_config sect (some f)).file = some f := by
  have hd : decode_token sec = .error "json.decoder.JSONDecodeError" := by
    simp [decode_token, htok, hne, hbad]
  constructor <;>
    simp [get_config, load_from_file, hsec, hint, hd]

/-- C6 witness: the token text `corrupt` is stored in the active section,
passes interpolation unchanged, is not valid JSON, and loading the section
fails with the decode error while the file stays as it was. -/
theorem malformed_token_fails_load_witness :
    (get_config "default"
        (some [("default", [("auth_token", IniVal.istr "corrupt")])])).result =
      .error "json.decoder.JSONDecodeError" ∧
    (get_config "default"
        (some [("default", [("auth_token", IniVal.istr "corrupt")])])).file =
      some [("default", [("auth_token", IniVal.istr "corrupt")])] :=
  malformed_token_fails_load "default"
    [("default", [("auth_token", IniVal.istr "corrupt")])]
    [("auth_token", IniVal.istr "corrupt")]
    [("auth_token", IniVal.istr "corrupt")] "corrupt" [] rfl rfl rfl
    (by decide) rfl

/-- C7 counterexample: the claim that every load resolves the config-file
path in effect at startup is false — `ConfigLocation()` is re-instantiated
inside `get_config`, so a load that runs after the environment variable
changed resolves a different path than the startup one. -/
theorem location_not_fixed_counterexample :
    get_config_resolved_location "/home/user" "/tmp"
        { azul_config_location := some "/srv/other.ini" } ≠
      (startup_config_location "/home/user" "/tmp" {}).azul_config_location := by
  decide

/-- C7 amended: the lock-file path and lock timeout are fixed at startup
(they are baked into the module-level lock), while the config-file path is
re-resolved from the environment on every load and save; it equals the path
in effect at startup whenever the config-location environment setting is
unchanged since startup. -/
theorem location_resolution_amended (home tmpdir : String) (e0 e1 : Env)
    (h : e1.azul_config_location = e0.azul_config_location) :
    get_config_resolved_location home tmpdir e1 =
      (startup_config_location home tmpdir e0).azul_config_location ∧
    save_resolved_location home tmpdir e1 =
      (startup_config_location home tmpdir e0).azul_config_location := by
  constructor <;>
    simp [get_config_resolved_location, save_resolved_location,
      startup_config_location, ConfigLocation.ofEnv, h]

/-- C7 amended witness: with the environment unchanged since startup, a load
resolves exactly the startup path. -/
theorem location_resolution_amended_witness :
    get_config_resolved_location "/home/user" "/tmp" {} =
      (startup_config_location "/home/user" "/tmp" {}).azul_config_location ∧
    save_resolved_location "/home/user" "/tmp" {} =
      (startup_config_location "/home/user" "/tmp" {}).azul_config_location :=
  location_resolution_amended "/home/user" "/tmp" {} {} rfl

/-- C8: a process that acquires the reentrant lock and then performs the two
nested lock-protected calls of `clear_auth` (`get_config` and `save`)
succeeds at every nested acquisition regardless of the configured timeout,
completes without deadlock, and ends with the lock fully released — no
additional releases are required. -/
theorem clear_auth_lock_reentrant (timeout : Rat) (pid : Nat) :
    run_lock_ops timeout pid clear_auth_lock_ops ⟨none, 0⟩ = some ⟨none, 0⟩ := by
  simp [clear_auth_lock_ops, run_lock_ops, lock_acquire, lock_release]

/-- C9: `Config.save` writes to whichever section is active when save runs,
not the section the record was loaded from: a record loaded under section A
and saved after switching to section B leaves the stored content of A as it
was in every case, and when the save is accepted (a loaded record can carry
a stray percent sign that configparser rejects on re-save) the fields are
written into B. -/
theorem save_targets_active_section (file : Option IniFile) (A B : String)
    (c : Config)
    (hload : (get_config A file).result = .ok c)
    (hAB : A ≠ B) :
    alist_get (((c.save B ((get_config A file).file)).2).getD []) A =
      alist_get (((get_config A file).file).getD []) A ∧
    ((c.save B ((get_config A file).file)).1 = .ok () →
      ∃ f2, (c.save B ((get_config A file).file)).2 = some f2 ∧
        alist_get f2 B = some c.ini_section) := by
  cases hser : token_serializable c.auth_token with
  | false => simp [Config.save, hser]
  | true =>
    cases hset : c.set_ok with
    | false => simp [Config.save, hset, hser]
    | true =>
      refine ⟨?_, fun _ =>
        ⟨set_section (((get_config A file).file).getD []) B c.ini_section, ?_,
          alist_get_set_section_self ..⟩⟩
      · simp [Config.save, hser, hset,
          alist_get_set_section_other _ _ _ _ hAB]
      · simp [Config.save, hser, hset]

/-- C9 witness: the defaults loaded under `default` and saved while `staging`
is active land in `staging`, with `default` untouched. -/
theorem save_targets_active_section_witness :
    alist_get (((Config.save default_config "staging"
        ((get_config "default"
          (some [("default", default_config.ini_section)])).file)).2).getD [])
        "default" =
      alist_get (((get_config "default"
        (some [("default", default_config.ini_section)])).file).getD [])
        "default" ∧
    ∃ f2, (Config.save default_config "staging"
        ((get_config "default"
          (some [("default", default_config.ini_section)])).file)).2 = some f2 ∧
      alist_get f2 "staging" = some default_config.ini_section :=
  ⟨(save_targets_active_section (some [("default", default_config.ini_section)])
      "default" "staging" default_config rfl (by decide)).1,
   (save_targets_active_section (some [("default", default_config.ini_section)])
      "default" "staging" default_config rfl (by decide)).2 rfl⟩

/-- C10: saving a record whose token is not JSON-serialisable raises during
serialisation, which strictly precedes opening the file for writing, so the
stored file is unchanged by the failed save. -/
theorem unserializable_token_save_fails (c : Config) (sect : String)
    (file : Option IniFile) (h : token_serializable c.auth_token = false) :
    (c.save sect file).1 =
      .error "TypeError: Object is not JSON serializable" ∧
    (c.save sect file).2 = file := by
  constructor <;> simp [Config.save, h]

/-- C10 witness: a token holding a Python set cannot be serialised, and the
failed save leaves the concrete file untouched. -/
theorem unserializable_token_save_fails_witness :
    (witness_badtoken.save "default" (some [("default", [])])).1 =
      .error "TypeError: Object is not JSON serializable" ∧
    (witness_badtoken.save "default" (some [("default", [])])).2 =
      some [("default", [])] :=
  unserializable_token_save_fails witness_badtoken "default"
    (some [("default", [])]) rfl

end AzulClient
